import Mathlib

/-!
Shallow embedding of the customer purchase analysis dashboard
(`src/costumer_app.py`, called variant 1 below, and `src/customer_app.py`,
called variant 2), restricted to the filter-and-segment pipeline:
filtering, RFM summaries, segment assignment, brand-by-segment roll-up
with percentage mode, top-k ranking per brand, date-column loading, and
the purchase-pattern histogram bin computation.

Modelling conventions:
- a transaction row carries the canonical columns; `date` is an integer
  number of days (pandas timestamps at day granularity), `quantity` an
  integer, `email` an `Option` (pandas NaN is `none`);
- a pandas dataframe is a `List Row` (order and duplicates preserved);
- `pd.cut` with right-closed bins is a function into `Option Segment`
  (`none` is the NaN a value outside every bin receives);
- `groupby` on keys drops rows whose key is missing (pandas
  `dropna=True`), hence grouping keys are `Row → Option κ`;
- percentage cells are `Option ℚ`: `none` models the NaN produced by
  `0 / 0` in a zero-total row, `some q` an actual number.
-/

/-- One row of the canonical transaction table.  Variant 1 reads `brand`
directly from the CSV; variant 2 derives it from `ref` and also carries
`email` (possibly missing, i.e. `none`).  Rows of a table expressible in
both schema variants share this type. -/
structure Row where
  ref : String
  brand : String
  userId : String
  email : Option String
  date : ℤ
  quantity : ℤ
deriving DecidableEq

/-- The sidebar filter state: date range (inclusive), the customer
selectbox value, and the brand multiselect value (a list that may
contain the literal sentinel string "All Brands"). -/
structure FilterSpec where
  startDate : ℤ
  endDate : ℤ
  selectedCustomer : String
  selectedBrand : List String
deriving DecidableEq

def allBrandsSentinel : String := "All Brands"

def allCustomersSentinel : String := "All Customers"

/-- `df["date"].between(start, end)` — inclusive on both ends. -/
def datePred (spec : FilterSpec) (r : Row) : Bool :=
  decide (spec.startDate ≤ r.date) && decide (r.date ≤ spec.endDate)

/-- `(selected_customer == "All Customers") | (df["userId"] == selected_customer)`. -/
def custPred (spec : FilterSpec) (r : Row) : Bool :=
  decide (spec.selectedCustomer = allCustomersSentinel)
    || decide (r.userId = spec.selectedCustomer)

/-- Variant 1 brand factor: `selected_brand == ["All Brands"] or
df["brand"].isin(selected_brand)` — the Python `or` short-circuits on the
list equality test, so the whole-table pass happens only when the
multiselect is exactly `["All Brands"]`. -/
def brandPredV1 (spec : FilterSpec) (r : Row) : Bool :=
  decide (spec.selectedBrand = [allBrandsSentinel]) || spec.selectedBrand.contains r.brand

/-- Variant 2 brand factor: the brand filter is skipped whenever
`"All Brands" in selected_brand`, even when mixed with real brand names. -/
def brandPredV2 (spec : FilterSpec) (r : Row) : Bool :=
  spec.selectedBrand.contains allBrandsSentinel || spec.selectedBrand.contains r.brand

/-- Variant 1 filtering (costumer_app.py lines 75–87): one boolean mask,
conjunction of brand, customer and date factors. -/
def filtered_df_v1 (df : List Row) (spec : FilterSpec) : List Row :=
  df.filter (fun r => brandPredV1 spec r && custPred spec r && datePred spec r)

/-- Variant 2 filtering (customer_app.py lines 129–145): three sequential
conditional filters — brand (skipped when the sentinel is selected),
customer (skipped on "All Customers"), then date. -/
def filtered_df_v2 (df : List Row) (spec : FilterSpec) : List Row :=
  let t1 := if spec.selectedBrand.contains allBrandsSentinel then df
    else df.filter (fun r => spec.selectedBrand.contains r.brand)
  let t2 := if spec.selectedCustomer = allCustomersSentinel then t1
    else t1.filter (fun r => decide (r.userId = spec.selectedCustomer))
  t2.filter (fun r => datePred spec r)

inductive Segment
  | Active
  | Warm
  | Cold
  | Lost
deriving DecidableEq

/-- Variant 1 segment assignment: `pd.cut(recency, bins=[-1, 30, 90, 180, 9999],
labels=["Active", "Warm", "Cold", "Lost"])`, right-closed intervals
`(-1, 30], (30, 90], (90, 180], (180, 9999]`; values outside every bin get
NaN (`none`). -/
def segment_v1 (recency : ℤ) : Option Segment :=
  if -1 < recency ∧ recency ≤ 30 then some .Active
  else if 30 < recency ∧ recency ≤ 90 then some .Warm
  else if 90 < recency ∧ recency ≤ 180 then some .Cold
  else if 180 < recency ∧ recency ≤ 9999 then some .Lost
  else none

/-- Variant 2 segment assignment: `pd.cut(recency, bins=[0, 30, 90, 180, 9999], ...)`
with default `right=True` and no `include_lowest`, i.e. intervals
`(0, 30], (30, 90], (90, 180], (180, 9999]` — note the value 0 falls in no
bin and receives NaN. -/
def segment_v2 (recency : ℤ) : Option Segment :=
  if 0 < recency ∧ recency ≤ 30 then some .Active
  else if 30 < recency ∧ recency ≤ 90 then some .Warm
  else if 90 < recency ∧ recency ≤ 180 then some .Cold
  else if 180 < recency ∧ recency ≤ 9999 then some .Lost
  else none

/-- Maximum of a list of integers, seeded with the head ( `Series.max()`
on a nonempty column); the `[]` case is never reached with a meaning. -/
def listMax : List ℤ → ℤ
  | [] => 0
  | x :: xs => xs.foldl max x

/-- `df["date"].max()` over the whole canonical table. -/
def max_date (df : List Row) : ℤ :=
  listMax (df.map (·.date))

/-- One row of an RFM summary table, keyed by the group key (userId for
variant 1 customer summaries, (userId, email) for variant 2, with a brand
component for the brand-level summaries). -/
structure RFMRow (κ : Type) where
  key : κ
  lastPurchaseDate : ℤ
  frequency : ℕ
  monetary : ℤ
  recency : ℤ
  segment : Option Segment
deriving DecidableEq

/-- The rows of `t` belonging to group `k` (pandas `groupby` drops rows
whose key is missing). -/
def groupRows {κ : Type} [DecidableEq κ] (key : Row → Option κ) (t : List Row) (k : κ) :
    List Row :=
  t.filter (fun r => decide (key r = some k))

/-- `groupby(keys).agg({"date": "max", "ref": "count", "quantity": "sum"})`
followed by the Recency and Segment columns: per group, last purchase date,
frequency, monetary, `Recency = maxDate - LastPurchaseDate`, and the
segment of that recency. -/
def rfm_summary {κ : Type} [DecidableEq κ] (key : Row → Option κ)
    (seg : ℤ → Option Segment) (maxDate : ℤ) (t : List Row) : List (RFMRow κ) :=
  (t.filterMap key).dedup.map (fun k =>
    let rows := groupRows key t k
    let last := listMax (rows.map (·.date))
    { key := k
      lastPurchaseDate := last
      frequency := rows.length
      monetary := (rows.map (·.quantity)).sum
      recency := maxDate - last
      segment := seg (maxDate - last) })

def keyCustV1 (r : Row) : Option String :=
  some r.userId

def keyCustV2 (r : Row) : Option (String × String) :=
  r.email.map (fun e => (r.userId, e))

def keyBrandV1 (r : Row) : Option (String × String) :=
  some (r.brand, r.userId)

def keyBrandV2 (r : Row) : Option (String × String × String) :=
  r.email.map (fun e => (r.brand, r.userId, e))

/-- costumer_app.py lines 132–145: customer summary grouped by `userId`. -/
def customer_summary_v1 (maxDate : ℤ) (t : List Row) : List (RFMRow String) :=
  rfm_summary keyCustV1 segment_v1 maxDate t

/-- customer_app.py lines 196–221: customer summary grouped by
`(userId, email)`; rows with a missing email have no group key. -/
def customer_summary_v2 (maxDate : ℤ) (t : List Row) : List (RFMRow (String × String)) :=
  rfm_summary keyCustV2 segment_v2 maxDate t

/-- costumer_app.py lines 161–174: brand-level summary grouped by
`(brand, userId)`. -/
def segmentation_summary_v1 (maxDate : ℤ) (t : List Row) :
    List (RFMRow (String × String)) :=
  rfm_summary keyBrandV1 segment_v1 maxDate t

/-- customer_app.py lines 236–256: brand-level summary grouped by
`(brand, userId, email)`. -/
def segmentation_summary_v2 (maxDate : ℤ) (t : List Row) :
    List (RFMRow (String × String × String)) :=
  rfm_summary keyBrandV2 segment_v2 maxDate t

/-- The four per-brand segment counts (one unstacked row of
`groupby(["brand", "Segment"]).size().unstack(fill_value=0)`). -/
structure SegCounts where
  active : ℕ
  warm : ℕ
  cold : ℕ
  lost : ℕ
deriving DecidableEq

/-- Count of summary entries of brand `b` classified in segment `g`;
entries whose segment is NaN are counted nowhere (`groupby` drops the
missing key). -/
def segCount {κ : Type} [DecidableEq κ] (brandOf : κ → String)
    (s : List (RFMRow κ)) (b : String) (g : Segment) : ℕ :=
  (s.filter (fun e => decide (brandOf e.key = b) && decide (e.segment = some g))).length

def brandCounts {κ : Type} [DecidableEq κ] (brandOf : κ → String)
    (s : List (RFMRow κ)) (b : String) : SegCounts :=
  ⟨segCount brandOf s b .Active, segCount brandOf s b .Warm,
    segCount brandOf s b .Cold, segCount brandOf s b .Lost⟩

/-- The unstacked `brand_segment_summary` in count mode: one row per
observed brand of the brand-level summary (a brand all of whose customers
have a NaN segment still appears, with an all-zero row, because the
categorical Segment grouper is expanded over every observed brand). -/
def brand_segment_summary {κ : Type} [DecidableEq κ] (brandOf : κ → String)
    (s : List (RFMRow κ)) : List (String × SegCounts) :=
  (s.map (fun e => brandOf e.key)).dedup.map (fun b => (b, brandCounts brandOf s b))

def rowTotal (x : SegCounts) : ℕ :=
  x.active + x.warm + x.cold + x.lost

/-- One percentage-mode row; each cell is `Option ℚ`, `none` being the NaN
that `0 / 0` produces in a zero-total row. -/
structure PctCounts where
  active : Option ℚ
  warm : Option ℚ
  cold : Option ℚ
  lost : Option ℚ
deriving DecidableEq

/-- One cell of `(x / x.sum()) * 100`: NaN when the row total is zero
(every cell of such a row is 0, and `0 / 0` is NaN), otherwise the exact
rational percentage. -/
def pctCell (c total : ℕ) : Option ℚ :=
  if total = 0 then none else some ((c : ℚ) / (total : ℚ) * 100)

def pctRow (x : SegCounts) : PctCounts :=
  ⟨pctCell x.active (rowTotal x), pctCell x.warm (rowTotal x),
    pctCell x.cold (rowTotal x), pctCell x.lost (rowTotal x)⟩

/-- `brand_segment_summary.apply(lambda x: (x / x.sum()) * 100, axis=1)`. -/
def brand_segment_summary_pct {κ : Type} [DecidableEq κ] (brandOf : κ → String)
    (s : List (RFMRow κ)) : List (String × PctCounts) :=
  (brand_segment_summary brandOf s).map (fun p => (p.1, pctRow p.2))

def brand_segment_pct_v1 (maxDate : ℤ) (t : List Row) : List (String × PctCounts) :=
  brand_segment_summary_pct Prod.fst (segmentation_summary_v1 maxDate t)

def brand_segment_pct_v2 (maxDate : ℤ) (t : List Row) : List (String × PctCounts) :=
  brand_segment_summary_pct Prod.fst (segmentation_summary_v2 maxDate t)

def brand_segment_counts_v1 (maxDate : ℤ) (t : List Row) : List (String × SegCounts) :=
  brand_segment_summary Prod.fst (segmentation_summary_v1 maxDate t)

/-- `groupby(group_keys)["quantity"].sum().reset_index()`: one output row
per distinct key, with the summed quantity. -/
def group_qty_sum {κ : Type} [DecidableEq κ] (key : Row → κ) (t : List Row) :
    List (κ × ℤ) :=
  (t.map key).dedup.map
    (fun k => (k, ((t.filter (fun r => decide (key r = k))).map (·.quantity)).sum))

/-- `sort_values(["brand", "quantity"], ascending=[True, False])` as a
boolean order: brands ascending, quantity descending within a brand. -/
def rankLE {κ : Type} (brandOf : κ → String) (a b : κ × ℤ) : Bool :=
  decide (brandOf a.1 < brandOf b.1)
    || (decide (brandOf a.1 = brandOf b.1) && decide (b.2 ≤ a.2))

/-- `.groupby("brand").head(k)`: walk the sorted rows keeping the first
`k` rows of each brand; `seen` is the multiset of brands of rows already
kept. -/
def headPerGroup {κ : Type} (brandOf : κ → String) (k : ℕ) :
    List String → List (κ × ℤ) → List (κ × ℤ)
  | _, [] => []
  | seen, x :: xs =>
    if seen.count (brandOf x.1) < k then
      x :: headPerGroup brandOf k (brandOf x.1 :: seen) xs
    else headPerGroup brandOf k seen xs

/-- The whole top-k ranking stage: aggregate quantity by key, sort by
(brand asc, quantity desc), keep the top `k` rows within each brand. -/
def top_k {κ : Type} [DecidableEq κ] (brandOf : κ → String) (key : Row → κ)
    (k : ℕ) (t : List Row) : List (κ × ℤ) :=
  headPerGroup brandOf k [] (List.mergeSort (group_qty_sum key t) (rankLE brandOf))

/-- costumer_app.py lines 306–315: keys are `(brand, userId)`. -/
def top_customers_by_brand_v1 (k : ℕ) (t : List Row) : List ((String × String) × ℤ) :=
  top_k Prod.fst (fun r => (r.brand, r.userId)) k t

/-- customer_app.py lines 372–379: keys are `(brand, userId, email)`
(the email is carried along; a missing email is part of the key value
here only in the sense that pandas would drop it — ranking claims do not
depend on it, and we keep the raw optional value). -/
def top_customers_by_brand_v2 (k : ℕ) (t : List Row) :
    List ((String × String × Option String) × ℤ) :=
  top_k Prod.fst (fun r => (r.brand, r.userId, r.email)) k t

/-- Number of rows of brand `b` in a ranking table. -/
def countBrand {κ : Type} (brandOf : κ → String) (b : String) (l : List (κ × ℤ)) : ℕ :=
  (l.filter (fun x => decide (brandOf x.1 = b))).length

/-- A raw cell of the uploaded `date` column before `pd.to_datetime`:
either a parseable date or junk. -/
inductive RawDate
  | valid (d : ℤ)
  | invalid
deriving DecidableEq

def parseDate : RawDate → Option ℤ
  | .valid d => some d
  | .invalid => none

inductive LoadError
  | missingDateColumn
  | invalidDateFormat
deriving DecidableEq

/-- `pd.to_datetime(df["date"])` with the default `errors="raise"`: the
whole column parses, or the whole conversion fails. -/
def parseDateColumn : List RawDate → Option (List ℤ)
  | [] => some []
  | x :: xs =>
    match parseDate x, parseDateColumn xs with
    | some d, some ds => some (d :: ds)
    | _, _ => none

/-- The date-loading stage (customer_app.py lines 78–93: explicit column
check then guarded `pd.to_datetime`, with `st.error` + `st.stop` on
failure; costumer_app.py line 58 reaches the same outcomes through an
uncaught KeyError / ValueError).  `dateCol = none` models an absent
`date` column. -/
def load_dates (dateCol : Option (List RawDate)) : Except LoadError (List ℤ) :=
  match dateCol with
  | none => .error .missingDateColumn
  | some col =>
    match parseDateColumn col with
    | none => .error .invalidDateFormat
    | some ds => .ok ds

/-- Python `max` over a quantity series: fails (`ValueError: max() arg is
an empty sequence`) on an empty series, modelled as `none`. -/
def pyMax : List ℤ → Option ℤ
  | [] => none
  | x :: xs => some (xs.foldl max x)

/-- Python `range(0, stop, 1000)` as a list of integers. -/
def pyRange1000 (stop : ℤ) : List ℤ :=
  if stop ≤ 0 then []
  else (List.range ((stop - 1).toNat / 1000 + 1)).map (fun i => (i : ℤ) * 1000)

/-- costumer_app.py lines 239–241:
`bins = list(range(0, max(max(period_1_sales), max(period_2_sales)) + 1000, 1000))`;
the inner `max` calls raise on an empty period, hence `none`. -/
def bins_v1 (s1 s2 : List ℤ) : Option (List ℤ) :=
  match pyMax s1, pyMax s2 with
  | some m1, some m2 => some (pyRange1000 (max m1 m2 + 1000))
  | _, _ => none

/-- customer_app.py lines 308–312: guarded version,
`max_val = max(s1.max() if not empty else 0, s2.max() if not empty else 0)`,
always defined. -/
def bins_v2 (s1 s2 : List ℤ) : List ℤ :=
  pyRange1000 (max ((pyMax s1).getD 0) ((pyMax s2).getD 0) + 1000)

/-- `period_data.groupby("userId")["quantity"].sum()` — the per-customer
totals a purchase-pattern period histogram is built from. -/
def period_sales (t : List Row) : List ℤ :=
  (group_qty_sum (fun r => r.userId) t).map Prod.snd

/-! ### Filter lemmas -/

theorem bool_and_reorder (a b c : Bool) : (c && b && a) = (a && b && c) := by
  cases a <;> cases b <;> cases c <;> rfl

/-- A conditionally skipped filter whose condition does not look at the
row is a filter by a disjunction. -/
theorem filter_skip_bool (b : Bool) (l : List Row) (p : Row → Bool) :
    (if b = true then l else l.filter p) = l.filter (fun r => b || p r) := by
  cases b <;> simp

theorem filter_skip_prop (c : Prop) [Decidable c] (l : List Row) (p : Row → Bool) :
    (if c then l else l.filter p) = l.filter (fun r => decide c || p r) := by
  by_cases h : c <;> simp [h]

/-- The three sequential filters of variant 2 are one conjunctive filter. -/
theorem filtered_df_v2_eq_filter (df : List Row) (spec : FilterSpec) :
    filtered_df_v2 df spec
      = df.filter (fun r => brandPredV2 spec r && custPred spec r && datePred spec r) := by
  show ((if spec.selectedCustomer = allCustomersSentinel then
        (if spec.selectedBrand.contains allBrandsSentinel = true then df
          else df.filter (fun r => spec.selectedBrand.contains r.brand))
      else
        (if spec.selectedBrand.contains allBrandsSentinel = true then df
          else df.filter (fun r => spec.selectedBrand.contains r.brand)).filter
            (fun r => decide (r.userId = spec.selectedCustomer))).filter
              (fun r => datePred spec r)) = _
  rw [filter_skip_bool, filter_skip_prop, List.filter_filter, List.filter_filter]
  exact List.filter_congr fun r _ => bool_and_reorder ..

/-! ### Claims C2, C6, C1 -/

/-- Claim C2: for every canonical table and every filter spec, both
variants' filtering returns a subset of the rows, and a row is retained
precisely when it satisfies the conjunction of the three predicates: the
date lies in [start, end] (inclusive on both ends), the userId equals the
selector unless the customer selector is "all", and the brand belongs to
the selected set unless the brand selector resolves to "all" (variant 1
resolves "all" as the multiselect being exactly ["All Brands"], variant 2
as the sentinel being among the selected values). -/
theorem C2_filter_exact_conjunction (df : List Row) (spec : FilterSpec) (r : Row) :
    List.Sublist (filtered_df_v1 df spec) df
    ∧ List.Sublist (filtered_df_v2 df spec) df
    ∧ (r ∈ filtered_df_v1 df spec ↔ r ∈ df
        ∧ (spec.startDate ≤ r.date ∧ r.date ≤ spec.endDate)
        ∧ (spec.selectedCustomer = allCustomersSentinel ∨ r.userId = spec.selectedCustomer)
        ∧ (spec.selectedBrand = [allBrandsSentinel] ∨ r.brand ∈ spec.selectedBrand))
    ∧ (r ∈ filtered_df_v2 df spec ↔ r ∈ df
        ∧ (spec.startDate ≤ r.date ∧ r.date ≤ spec.endDate)
        ∧ (spec.selectedCustomer = allCustomersSentinel ∨ r.userId = spec.selectedCustomer)
        ∧ (allBrandsSentinel ∈ spec.selectedBrand ∨ r.brand ∈ spec.selectedBrand)) := by
  refine ⟨List.filter_sublist df, ?_, ?_, ?_⟩
  · rw [filtered_df_v2_eq_filter]
    exact List.filter_sublist df
  · simp only [filtered_df_v1, List.mem_filter, Bool.and_eq_true, Bool.or_eq_true,
      decide_eq_true_eq, brandPredV1, custPred, datePred, List.elem_eq_mem]
    constructor
    · rintro ⟨hm, ⟨hb, hc⟩, hd⟩
      exact ⟨hm, by simpa using hd, by simpa using hc, by simpa using hb⟩
    · rintro ⟨hm, hd, hc, hb⟩
      exact ⟨hm, ⟨by simpa using hb, by simpa using hc⟩, by simpa using hd⟩
  · rw [filtered_df_v2_eq_filter]
    simp only [List.mem_filter, Bool.and_eq_true, Bool.or_eq_true,
      decide_eq_true_eq, brandPredV2, custPred, datePred, List.elem_eq_mem]
    constructor
    · rintro ⟨hm, ⟨hb, hc⟩, hd⟩
      exact ⟨hm, by simpa using hd, by simpa using hc, by simpa using hb⟩
    · rintro ⟨hm, hd, hc, hb⟩
      exact ⟨hm, ⟨by simpa using hb, by simpa using hc⟩, by simpa using hd⟩

/-- Claim C6 (amended): the two pipelines agree whenever the brand
selection is exactly the sentinel or contains no sentinel, and the two
segment assignments agree at every recency other than 0. -/
theorem C6_variants_agree :
    (∀ (df : List Row) (spec : FilterSpec),
      spec.selectedBrand = [allBrandsSentinel] ∨ allBrandsSentinel ∉ spec.selectedBrand →
      filtered_df_v1 df spec = filtered_df_v2 df spec)
    ∧ ∀ recency : ℤ, recency ≠ 0 → segment_v1 recency = segment_v2 recency := by
  constructor
  · intro df spec h
    rw [filtered_df_v2_eq_filter, filtered_df_v1]
    refine List.filter_congr fun r _ => ?_
    have hb : brandPredV1 spec r = brandPredV2 spec r := by
      rcases h with h | h
      · simp [brandPredV1, brandPredV2, h]
      · have hne : spec.selectedBrand ≠ [allBrandsSentinel] := by
          intro he
          exact h (he ▸ List.mem_singleton_self _)
        simp only [brandPredV1, brandPredV2, hne, decide_eq_false_iff_not, decide_eq_true_eq,
          List.elem_eq_mem, h, decide_False, Bool.false_or]
    rw [hb]
  · intro recency hr
    unfold segment_v1 segment_v2
    split_ifs <;> first | rfl | omega

/-- Claim C6, counterexample to the claim as stated: on a table with
brands "X" and "Y" and the mixed selection ["All Brands", "X"], variant 1
treats the sentinel as a literal brand value (keeping only brand "X")
while variant 2 skips the brand filter (keeping both rows), so the two
pipelines do not produce the same filtered table for every identical
filter spec. -/
theorem C6_counterexample :
    filtered_df_v1 [⟨"X01", "X", "u1", none, 0, 1⟩, ⟨"Y01", "Y", "u2", none, 0, 1⟩]
      ⟨0, 10, "All Customers", ["All Brands", "X"]⟩
    ≠ filtered_df_v2 [⟨"X01", "X", "u1", none, 0, 1⟩, ⟨"Y01", "Y", "u2", none, 0, 1⟩]
      ⟨0, 10, "All Customers", ["All Brands", "X"]⟩ := by
  decide

theorem C6_variants_agree_witness :
    filtered_df_v1 [⟨"X01", "X", "u1", none, 0, 1⟩, ⟨"Y01", "Y", "u2", none, 0, 1⟩]
      ⟨0, 10, "All Customers", ["X"]⟩
    = filtered_df_v2 [⟨"X01", "X", "u1", none, 0, 1⟩, ⟨"Y01", "Y", "u2", none, 0, 1⟩]
      ⟨0, 10, "All Customers", ["X"]⟩
    ∧ segment_v1 5 = segment_v2 5 :=
  ⟨C6_variants_agree.1 _ _ (Or.inr (by decide)), C6_variants_agree.2 5 (by decide)⟩

/-- Claim C1 (code bug in customer_app.py): variant 2's bins
[0, 30, 90, 180, 9999] exclude Recency = 0, so a customer whose last
purchase is on the dataset's global max date receives no segment (NaN)
instead of Active; variant 1's bins [-1, ...] match the claimed threshold
table at every boundary.  The last conjunct evaluates the variant 2
pipeline at such a customer. -/
theorem C1_segment_thresholds :
    segment_v2 0 = none
    ∧ segment_v1 0 = some Segment.Active
    ∧ segment_v1 30 = some Segment.Active ∧ segment_v2 30 = some Segment.Active
    ∧ segment_v1 31 = some Segment.Warm ∧ segment_v2 31 = some Segment.Warm
    ∧ segment_v1 90 = some Segment.Warm ∧ segment_v2 90 = some Segment.Warm
    ∧ segment_v1 91 = some Segment.Cold ∧ segment_v2 91 = some Segment.Cold
    ∧ segment_v1 180 = some Segment.Cold ∧ segment_v2 180 = some Segment.Cold
    ∧ segment_v1 181 = some Segment.Lost ∧ segment_v2 181 = some Segment.Lost
    ∧ customer_summary_v2 (max_date [⟨"r1", "B", "u1", some "u1@x", 7, 5⟩])
        [⟨"r1", "B", "u1", some "u1@x", 7, 5⟩]
      = [⟨("u1", "u1@x"), 7, 1, 5, 0, none⟩] := by
  decide

/-! ### Claims C9, C7, C10 -/

/-- Any unparsable cell makes the whole column conversion fail. -/
theorem parseDateColumn_eq_none {col : List RawDate} {x : RawDate}
    (hx : x ∈ col) (hbad : parseDate x = none) : parseDateColumn col = none := by
  induction col with
  | nil => cases hx
  | cons y ys ih =>
    rcases List.mem_cons.mp hx with rfl | hmem
    · simp [parseDateColumn, hbad]
    · unfold parseDateColumn
      rw [ih hmem]
      cases parseDate y <;> rfl

/-- A successful column conversion parses every cell, in order. -/
theorem parseDateColumn_eq_some {col : List RawDate} {ds : List ℤ}
    (h : parseDateColumn col = some ds) :
    ds.length = col.length ∧ ∀ x ∈ col, ∃ d : ℤ, parseDate x = some d := by
  induction col generalizing ds with
  | nil =>
    simp only [parseDateColumn, Option.some_inj] at h
    subst h
    simp
  | cons y ys ih =>
    unfold parseDateColumn at h
    cases hy : parseDate y with
    | none => rw [hy] at h; exact absurd h (by simp)
    | some d =>
      rw [hy] at h
      cases hys : parseDateColumn ys with
      | none => rw [hys] at h; exact absurd h (by simp)
      | some ds' =>
        rw [hys] at h
        simp only [Option.some_inj] at h
        subst h
        obtain ⟨hlen, hall⟩ := ih hys
        refine ⟨by simp [hlen], ?_⟩
        intro x hx
        rcases List.mem_cons.mp hx with rfl | hmem
        · exact ⟨d, hy⟩
        · exact hall x hmem

/-- Claim C9: if the date column is absent, or any cell of it fails to
parse, the load fails as a whole with an error and produces no canonical
table — not even a partial one; and a successful load parses every cell
(no silent row-dropping in either direction). -/
theorem C9_load_all_or_nothing (dateCol : Option (List RawDate)) :
    (dateCol = none → load_dates dateCol = .error .missingDateColumn)
    ∧ (∀ col, dateCol = some col → (∃ x ∈ col, parseDate x = none) →
        load_dates dateCol = .error .invalidDateFormat)
    ∧ (∀ col ds, dateCol = some col → load_dates dateCol = .ok ds →
        ds.length = col.length ∧ ∀ x ∈ col, ∃ d : ℤ, parseDate x = some d) := by
  have hsome : ∀ col : List RawDate, load_dates (some col)
      = (match parseDateColumn col with
        | none => Except.error LoadError.invalidDateFormat
        | some ds => Except.ok ds) := fun _ => rfl
  refine ⟨?_, ?_, ?_⟩
  · rintro rfl
    rfl
  · rintro col rfl ⟨x, hx, hbad⟩
    rw [hsome col, parseDateColumn_eq_none hx hbad]
  · rintro col ds rfl hok
    rw [hsome col] at hok
    cases hp : parseDateColumn col with
    | none => rw [hp] at hok; exact absurd hok (by simp)
    | some ds' =>
      rw [hp] at hok
      simp only [Except.ok.injEq] at hok
      subst hok
      exact parseDateColumn_eq_some hp

theorem C9_load_all_or_nothing_witness :
    load_dates none = .error .missingDateColumn
    ∧ load_dates (some [RawDate.valid 3, RawDate.invalid]) = .error .invalidDateFormat :=
  ⟨(C9_load_all_or_nothing none).1 rfl,
    (C9_load_all_or_nothing (some [RawDate.valid 3, RawDate.invalid])).2.1
      [RawDate.valid 3, RawDate.invalid] rfl ⟨RawDate.invalid, by decide, rfl⟩⟩

/-- Claim C7 (code bug in costumer_app.py): on an empty filtered table
every summary stage yields an empty table, and variant 2's guarded bin
computation still completes (producing the single edge [0]), but variant
1's `max(max(period_1_sales), max(period_2_sales))` raises a ValueError
(modelled as `none`) because Python's `max` has no value on an empty
series.  The last conjunct shows an ordinary filter spec (a brand
selection matching no row) reaching the empty case. -/
theorem C7_empty_filtered_downstream :
    customer_summary_v1 0 [] = [] ∧ customer_summary_v2 0 [] = []
    ∧ brand_segment_pct_v1 0 [] = [] ∧ brand_segment_pct_v2 0 [] = []
    ∧ period_sales [] = []
    ∧ bins_v1 (period_sales []) (period_sales []) = none
    ∧ bins_v2 (period_sales []) (period_sales []) = [0]
    ∧ top_customers_by_brand_v1 5 [] = [] ∧ top_customers_by_brand_v2 5 [] = []
    ∧ filtered_df_v1 [⟨"r1", "A", "u1", none, 0, 1⟩] ⟨0, 10, "All Customers", ["Z"]⟩ = [] := by
  refine ⟨rfl, rfl, rfl, rfl, rfl, rfl, by decide, ?_, ?_, by decide⟩
  · simp [top_customers_by_brand_v1, top_k, group_qty_sum, List.mergeSort_nil, headPerGroup]
  · simp [top_customers_by_brand_v2, top_k, group_qty_sum, List.mergeSort_nil, headPerGroup]

/-- Grouping ignores a row whose group key is missing. -/
theorem rfm_summary_cons_none {κ : Type} [DecidableEq κ] (key : Row → Option κ)
    (seg : ℤ → Option Segment) (maxDate : ℤ) (r : Row) (t : List Row)
    (h : key r = none) :
    rfm_summary key seg maxDate (r :: t) = rfm_summary key seg maxDate t := by
  unfold rfm_summary
  rw [List.filterMap_cons_none h]
  refine List.map_congr_left fun k hk => ?_
  have hg : groupRows key (r :: t) k = groupRows key t k := by
    unfold groupRows
    rw [List.filter_cons_of_neg]
    simp [h]
  rw [hg]

/-- Claim C10: in the customer_app.py variant, a transaction row with a
missing email contributes to no group of the (userId, email)-keyed
customer summary nor of the (brand, userId, email)-keyed brand summary —
prepending such a row changes neither table — even though the filters
never look at the email, so the row passes them like any other. -/
theorem C10_null_email_excluded (maxDate : ℤ) (t : List Row) (r : Row)
    (h : r.email = none) :
    customer_summary_v2 maxDate (r :: t) = customer_summary_v2 maxDate t
    ∧ segmentation_summary_v2 maxDate (r :: t) = segmentation_summary_v2 maxDate t
    ∧ ∀ spec : FilterSpec,
        r ∈ filtered_df_v2 (r :: t) spec
        ↔ (brandPredV2 spec r && custPred spec r && datePred spec r) = true := by
  refine ⟨rfm_summary_cons_none _ _ _ _ _ (by simp [keyCustV2, h]),
    rfm_summary_cons_none _ _ _ _ _ (by simp [keyBrandV2, h]), ?_⟩
  intro spec
  rw [filtered_df_v2_eq_filter]
  simp [List.mem_filter]

theorem C10_null_email_excluded_witness :
    customer_summary_v2 0 [⟨"r1", "B", "u1", none, 3, 5⟩] = customer_summary_v2 0 []
    ∧ (⟨"r1", "B", "u1", none, 3, 5⟩ : Row) ∈
        filtered_df_v2 [⟨"r1", "B", "u1", none, 3, 5⟩]
          ⟨0, 10, "All Customers", ["All Brands"]⟩ :=
  ⟨(C10_null_email_excluded 0 [] ⟨"r1", "B", "u1", none, 3, 5⟩ rfl).1,
    ((C10_null_email_excluded 0 [] ⟨"r1", "B", "u1", none, 3, 5⟩ rfl).2.2
      ⟨0, 10, "All Customers", ["All Brands"]⟩).mpr (by decide)⟩

/-! ### Aggregation conserves totals (C4) -/

/-- Sums of a function over two disjoint filters add to the sum over the
disjunction filter. -/
theorem sum_filter_or_disjoint (f : Row → ℤ) (p q : Row → Bool) (t : List Row)
    (h : ∀ r : Row, ¬(p r = true ∧ q r = true)) :
    ((t.filter p).map f).sum + ((t.filter q).map f).sum
      = ((t.filter (fun r => p r || q r)).map f).sum := by
  induction t with
  | nil => simp
  | cons r t ih =>
    cases hp : p r <;> cases hq : q r
    · simpa [List.filter_cons, hp, hq] using ih
    · simp [List.filter_cons, hp, hq]
      omega
    · simp [List.filter_cons, hp, hq]
      omega
    · exact absurd ⟨hp, hq⟩ (h r)

/-- Summing the per-group sums over a duplicate-free key list equals one
sum over the rows whose key appears in that list. -/
theorem sum_groupRows_eq {κ : Type} [DecidableEq κ] (key : Row → Option κ)
    (f : Row → ℤ) (t : List Row) (K : List κ) (hnd : K.Nodup) :
    (K.map (fun k => ((groupRows key t k).map f).sum)).sum
      = ((t.filter (fun r => (key r).elim false K.contains)).map f).sum := by
  induction K with
  | nil =>
    have hf : ∀ r ∈ t, ((key r).elim false (List.contains []) : Bool) = false := by
      intro r _
      cases key r <;> rfl
    rw [List.filter_congr hf, List.filter_false]
    simp
  | cons k K ih =>
    have hnotin : k ∉ K := (List.nodup_cons.mp hnd).1
    rw [List.map_cons, List.sum_cons, ih (List.nodup_cons.mp hnd).2, groupRows,
      sum_filter_or_disjoint f _ _ t ?disj]
    case disj =>
      intro r ⟨h1, h2⟩
      rw [decide_eq_true_eq] at h1
      rw [h1] at h2
      simp only [Option.elim_some] at h2
      exact hnotin (by simpa using h2)
    refine congrArg _ (congrArg _ (List.filter_congr fun r _ => ?_))
    cases hk : key r with
    | none => simp
    | some k' =>
      simp only [Option.elim_some, decide_eq_true_eq, Option.some.injEq]
      show (decide (k' = k) || K.contains k') = List.contains (k :: K) k'
      rw [List.contains_cons]
      cases h : decide (k' = k) <;> simp_all

/-- The Monetary column of an RFM summary sums to the total quantity of
exactly the rows that carry a group key. -/
theorem sum_monetary_rfm {κ : Type} [DecidableEq κ] (key : Row → Option κ)
    (seg : ℤ → Option Segment) (maxDate : ℤ) (t : List Row) :
    ((rfm_summary key seg maxDate t).map (·.monetary)).sum
      = ((t.filter (fun r => (key r).isSome)).map (·.quantity)).sum := by
  have h1 : ((rfm_summary key seg maxDate t).map (·.monetary))
      = (t.filterMap key).dedup.map
          (fun k => ((groupRows key t k).map (·.quantity)).sum) := by
    rw [rfm_summary, List.map_map]
    rfl
  rw [h1, sum_groupRows_eq key (·.quantity) t _ (List.nodup_dedup _)]
  refine congrArg _ (congrArg _ (List.filter_congr fun r hr => ?_))
  cases hk : key r with
  | none => rfl
  | some k =>
    simp only [Option.elim_some, Option.isSome_some]
    have hkmem : k ∈ (t.filterMap key).dedup :=
      List.mem_dedup.mpr (List.mem_filterMap.mpr ⟨r, hr, hk⟩)
    simp [List.elem_eq_mem, hkmem]

/-- Claim C4 (amended): group-by aggregation conserves totals over the
rows that carry a group key — unconditionally for the userId-grouped
variant 1 summary, and over the rows with a present email for the
(userId, email)-grouped variant 2 summary (hence over the whole filtered
table exactly when no email is missing). -/
theorem C4_totals_conserved (maxDate : ℤ) (t : List Row) :
    ((customer_summary_v1 maxDate t).map (·.monetary)).sum = (t.map (·.quantity)).sum
    ∧ ((customer_summary_v2 maxDate t).map (·.monetary)).sum
      = ((t.filter (fun r => r.email.isSome)).map (·.quantity)).sum := by
  constructor
  · rw [customer_summary_v1, sum_monetary_rfm]
    exact congrArg _ (congrArg _ (List.filter_eq_self.mpr fun r _ => rfl))
  · rw [customer_summary_v2, sum_monetary_rfm]
    have hp : ∀ s : Row, (keyCustV2 s).isSome = s.email.isSome := by
      intro s
      unfold keyCustV2
      cases s.email <;> rfl
    exact congrArg _ (congrArg _ (List.filter_congr fun s _ => hp s))

/-- Claim C4, counterexample to the claim as stated: in the variant 2
summary a row with a missing email belongs to no (userId, email) group,
so the Monetary total is 0 while the filtered table's quantity total
is 5. -/
theorem C4_counterexample :
    ((customer_summary_v2 (max_date [⟨"r1", "B", "u1", none, 0, 5⟩])
        [⟨"r1", "B", "u1", none, 0, 5⟩]).map (·.monetary)).sum
    ≠ (([⟨"r1", "B", "u1", none, 0, 5⟩] : List Row).map (·.quantity)).sum := by
  decide

/-! ### Recency against the global max date (C5) -/

theorem init_le_foldl_max (x : ℤ) (xs : List ℤ) : x ≤ xs.foldl max x := by
  induction xs generalizing x with
  | nil => exact le_refl x
  | cons y ys ih => exact le_trans (le_max_left x y) (ih (max x y))

theorem mem_le_foldl_max {a : ℤ} {xs : List ℤ} (x : ℤ) (h : a ∈ xs) :
    a ≤ xs.foldl max x := by
  induction xs generalizing x with
  | nil => cases h
  | cons y ys ih =>
    rcases List.mem_cons.mp h with rfl | hmem
    · exact le_trans (le_max_right x a) (init_le_foldl_max _ ys)
    · exact ih (max x y) hmem

theorem le_listMax {a : ℤ} {l : List ℤ} (h : a ∈ l) : a ≤ listMax l := by
  cases l with
  | nil => cases h
  | cons x xs =>
    rw [listMax]
    rcases List.mem_cons.mp h with rfl | hmem
    · exact init_le_foldl_max a xs
    · exact mem_le_foldl_max x hmem

theorem foldl_max_mem (xs : List ℤ) (x : ℤ) : xs.foldl max x ∈ x :: xs := by
  induction xs generalizing x with
  | nil => exact List.mem_singleton_self x
  | cons y ys ih =>
    rw [List.foldl_cons]
    rcases List.mem_cons.mp (ih (max x y)) with h | h
    · rcases max_choice x y with hm | hm
      · exact List.mem_cons.mpr (Or.inl (h.trans hm))
      · exact List.mem_cons.mpr (Or.inr (List.mem_cons.mpr (Or.inl (h.trans hm))))
    · exact List.mem_cons.mpr (Or.inr (List.mem_cons.mpr (Or.inr h)))

theorem listMax_mem {l : List ℤ} (h : l ≠ []) : listMax l ∈ l := by
  cases l with
  | nil => exact absurd rfl h
  | cons x xs =>
    rw [listMax]
    exact foldl_max_mem xs x

/-- What membership of an RFM summary says about a row's fields. -/
theorem mem_rfm_summary {κ : Type} [DecidableEq κ] {key : Row → Option κ}
    {seg : ℤ → Option Segment} {maxDate : ℤ} {t : List Row} {e : RFMRow κ}
    (h : e ∈ rfm_summary key seg maxDate t) :
    e.lastPurchaseDate = listMax ((groupRows key t e.key).map (·.date))
    ∧ e.recency = maxDate - e.lastPurchaseDate
    ∧ e.segment = seg e.recency
    ∧ e.monetary = ((groupRows key t e.key).map (·.quantity)).sum
    ∧ e.frequency = (groupRows key t e.key).length
    ∧ groupRows key t e.key ≠ [] := by
  obtain ⟨k, hk, rfl⟩ := List.mem_map.mp h
  refine ⟨rfl, rfl, rfl, rfl, rfl, ?_⟩
  obtain ⟨r, hr, hkr⟩ := List.mem_filterMap.mp (List.mem_dedup.mp hk)
  intro hempty
  have hrg : r ∈ groupRows key t k := List.mem_filter.mpr ⟨hr, by simp [hkr]⟩
  rw [hempty] at hrg
  cases hrg

/-- Recency structure and monotonicity of any RFM summary: against a
fixed reference max date, a summary built from fewer rows (per
membership) reports a recency at least as large for a shared key. -/
theorem rfm_recency_spec_mono {κ : Type} [DecidableEq κ] (key : Row → Option κ)
    (seg : ℤ → Option Segment) (maxD : ℤ) {t t' : List Row}
    (hsub : ∀ r ∈ t', r ∈ t) {e e' : RFMRow κ}
    (he : e ∈ rfm_summary key seg maxD t)
    (he' : e' ∈ rfm_summary key seg maxD t')
    (hkey : e'.key = e.key) :
    e.recency = maxD - e.lastPurchaseDate ∧ e.recency ≤ e'.recency := by
  obtain ⟨hlast, hrec, -, -, -, -⟩ := mem_rfm_summary he
  obtain ⟨hlast', hrec', -, -, -, hne'⟩ := mem_rfm_summary he'
  refine ⟨hrec, ?_⟩
  have hsubg : ∀ r ∈ groupRows key t' e'.key, r ∈ groupRows key t e.key := by
    intro r hr
    obtain ⟨hmem, hkr⟩ := List.mem_filter.mp hr
    exact List.mem_filter.mpr ⟨hsub r hmem, by rw [← hkey]; exact hkr⟩
  have hmax : listMax ((groupRows key t' e'.key).map (·.date))
      ≤ listMax ((groupRows key t e.key).map (·.date)) := by
    have hne2 : (groupRows key t' e'.key).map (·.date) ≠ [] := by
      simpa using hne'
    obtain ⟨r, hrmem, hrd⟩ := List.mem_map.mp (listMax_mem hne2)
    rw [← hrd]
    exact le_listMax (List.mem_map.mpr ⟨r, hsubg r hrmem, rfl⟩)
  rw [hrec, hrec', hlast, hlast']
  omega

/-- Each of the four row predicates is monotone when the date range
narrows and the customer and brand selectors stay the same. -/
theorem narrower_pred_imp (spec spec' : FilterSpec) (r : Row)
    (hstart : spec.startDate ≤ spec'.startDate)
    (hend : spec'.endDate ≤ spec.endDate)
    (hcust : spec'.selectedCustomer = spec.selectedCustomer)
    (hbrand : spec'.selectedBrand = spec.selectedBrand) :
    (custPred spec' r = true → custPred spec r = true)
    ∧ (datePred spec' r = true → datePred spec r = true)
    ∧ (brandPredV1 spec' r = true → brandPredV1 spec r = true)
    ∧ (brandPredV2 spec' r = true → brandPredV2 spec r = true) := by
  refine ⟨?_, ?_, ?_, ?_⟩
  · unfold custPred
    rw [hcust]
    exact id
  · unfold datePred
    simp only [Bool.and_eq_true, decide_eq_true_eq]
    omega
  · unfold brandPredV1
    rw [hbrand]
    exact id
  · unfold brandPredV2
    rw [hbrand]
    exact id

/-- Narrowing the date range of the filter spec keeps variant 1's
filtered table a subset (by membership). -/
theorem filtered_df_v1_narrow (df : List Row) (spec spec' : FilterSpec)
    (hstart : spec.startDate ≤ spec'.startDate)
    (hend : spec'.endDate ≤ spec.endDate)
    (hcust : spec'.selectedCustomer = spec.selectedCustomer)
    (hbrand : spec'.selectedBrand = spec.selectedBrand) :
    ∀ r ∈ filtered_df_v1 df spec', r ∈ filtered_df_v1 df spec := by
  intro r hr
  obtain ⟨hdf, hpred⟩ := List.mem_filter.mp hr
  obtain ⟨hc, hd, hb, -⟩ := narrower_pred_imp spec spec' r hstart hend hcust hbrand
  refine List.mem_filter.mpr ⟨hdf, ?_⟩
  simp only [Bool.and_eq_true] at hpred ⊢
  exact ⟨⟨hb hpred.1.1, hc hpred.1.2⟩, hd hpred.2⟩

/-- Narrowing the date range of the filter spec keeps variant 2's
filtered table a subset (by membership). -/
theorem filtered_df_v2_narrow (df : List Row) (spec spec' : FilterSpec)
    (hstart : spec.startDate ≤ spec'.startDate)
    (hend : spec'.endDate ≤ spec.endDate)
    (hcust : spec'.selectedCustomer = spec.selectedCustomer)
    (hbrand : spec'.selectedBrand = spec.selectedBrand) :
    ∀ r ∈ filtered_df_v2 df spec', r ∈ filtered_df_v2 df spec := by
  intro r hr
  rw [filtered_df_v2_eq_filter] at hr ⊢
  obtain ⟨hdf, hpred⟩ := List.mem_filter.mp hr
  obtain ⟨hc, hd, -, hb⟩ := narrower_pred_imp spec spec' r hstart hend hcust hbrand
  refine List.mem_filter.mpr ⟨hdf, ?_⟩
  simp only [Bool.and_eq_true] at hpred ⊢
  exact ⟨⟨hb hpred.1.1, hc hpred.1.2⟩, hd hpred.2⟩

/-- Claim C5: in both variants' customer summaries built from a filtered
view of the canonical table `df`, every row's Recency equals the
difference in days between the maximum date over the ENTIRE canonical
table and that row's LastPurchaseDate; consequently, narrowing the date
range of the filter (same customer and brand selectors) never decreases
the Recency of a customer present in both summaries. -/
theorem C5_recency_global_max (df : List Row) (spec spec' : FilterSpec)
    (hstart : spec.startDate ≤ spec'.startDate)
    (hend : spec'.endDate ≤ spec.endDate)
    (hcust : spec'.selectedCustomer = spec.selectedCustomer)
    (hbrand : spec'.selectedBrand = spec.selectedBrand) :
    (∀ e e' : RFMRow String,
      e ∈ customer_summary_v1 (max_date df) (filtered_df_v1 df spec) →
      e' ∈ customer_summary_v1 (max_date df) (filtered_df_v1 df spec') →
      e'.key = e.key →
      e.recency = max_date df - e.lastPurchaseDate ∧ e.recency ≤ e'.recency)
    ∧ ∀ e e' : RFMRow (String × String),
      e ∈ customer_summary_v2 (max_date df) (filtered_df_v2 df spec) →
      e' ∈ customer_summary_v2 (max_date df) (filtered_df_v2 df spec') →
      e'.key = e.key →
      e.recency = max_date df - e.lastPurchaseDate ∧ e.recency ≤ e'.recency := by
  constructor
  · intro e e' he he' hkey
    exact rfm_recency_spec_mono keyCustV1 segment_v1 (max_date df)
      (filtered_df_v1_narrow df spec spec' hstart hend hcust hbrand) he he' hkey
  · intro e e' he he' hkey
    exact rfm_recency_spec_mono keyCustV2 segment_v2 (max_date df)
      (filtered_df_v2_narrow df spec spec' hstart hend hcust hbrand) he he' hkey

theorem C5_recency_global_max_witness :
    ((⟨"u1", 10, 2, 2, 0, some Segment.Active⟩ : RFMRow String).recency
      = max_date [⟨"r1", "A", "u1", some "e1", 0, 1⟩, ⟨"r2", "A", "u1", some "e1", 10, 1⟩]
        - (⟨"u1", 10, 2, 2, 0, some Segment.Active⟩ : RFMRow String).lastPurchaseDate
      ∧ (⟨"u1", 10, 2, 2, 0, some Segment.Active⟩ : RFMRow String).recency
        ≤ (⟨"u1", 0, 1, 1, 10, some Segment.Active⟩ : RFMRow String).recency)
    ∧ ((⟨("u1", "e1"), 10, 2, 2, 0, none⟩ : RFMRow (String × String)).recency
      = max_date [⟨"r1", "A", "u1", some "e1", 0, 1⟩, ⟨"r2", "A", "u1", some "e1", 10, 1⟩]
        - (⟨("u1", "e1"), 10, 2, 2, 0, none⟩ : RFMRow (String × String)).lastPurchaseDate
      ∧ (⟨("u1", "e1"), 10, 2, 2, 0, none⟩ : RFMRow (String × String)).recency
        ≤ (⟨("u1", "e1"), 0, 1, 1, 10, some Segment.Active⟩
            : RFMRow (String × String)).recency) :=
  ⟨(C5_recency_global_max
      [⟨"r1", "A", "u1", some "e1", 0, 1⟩, ⟨"r2", "A", "u1", some "e1", 10, 1⟩]
      ⟨0, 10, "All Customers", ["All Brands"]⟩ ⟨0, 5, "All Customers", ["All Brands"]⟩
      (by decide) (by decide) rfl rfl).1
    ⟨"u1", 10, 2, 2, 0, some Segment.Active⟩ ⟨"u1", 0, 1, 1, 10, some Segment.Active⟩
    (by decide) (by decide) rfl,
  (C5_recency_global_max
      [⟨"r1", "A", "u1", some "e1", 0, 1⟩, ⟨"r2", "A", "u1", some "e1", 10, 1⟩]
      ⟨0, 10, "All Customers", ["All Brands"]⟩ ⟨0, 5, "All Customers", ["All Brands"]⟩
      (by decide) (by decide) rfl rfl).2
    ⟨("u1", "e1"), 10, 2, 2, 0, none⟩ ⟨("u1", "e1"), 0, 1, 1, 10, some Segment.Active⟩
    (by decide) (by decide) rfl⟩

/-! ### Percentage-mode brand segmentation rows (C3) -/

/-- One percentage row has all cells defined and summing to exactly 100
when the count total is nonzero, and all cells NaN when it is zero. -/
theorem pctRow_spec (x : SegCounts) :
    (rowTotal x ≠ 0 ∧ ∃ qa qw qc ql : ℚ,
        pctRow x = ⟨some qa, some qw, some qc, some ql⟩ ∧ qa + qw + qc + ql = 100)
    ∨ (rowTotal x = 0 ∧ pctRow x = ⟨none, none, none, none⟩) := by
  by_cases h : rowTotal x = 0
  · right
    refine ⟨h, ?_⟩
    simp [pctRow, pctCell, h]
  · left
    have hT : ((rowTotal x : ℕ) : ℚ) ≠ 0 := Nat.cast_ne_zero.mpr h
    refine ⟨h, (x.active : ℚ) / (rowTotal x : ℚ) * 100,
      (x.warm : ℚ) / (rowTotal x : ℚ) * 100,
      (x.cold : ℚ) / (rowTotal x : ℚ) * 100,
      (x.lost : ℚ) / (rowTotal x : ℚ) * 100, ?_, ?_⟩
    · simp [pctRow, pctCell, h]
    · have hsum : (x.active : ℚ) + x.warm + x.cold + x.lost = ((rowTotal x : ℕ) : ℚ) := by
        rw [rowTotal]
        push_cast
        ring
      field_simp
      linarith [hsum]

/-- Every row of a percentage summary is the percentage image of some
count row. -/
theorem mem_brand_segment_summary_pct {κ : Type} [DecidableEq κ] {brandOf : κ → String}
    {s : List (RFMRow κ)} {b : String} {pr : PctCounts}
    (h : (b, pr) ∈ brand_segment_summary_pct brandOf s) :
    ∃ x : SegCounts, pr = pctRow x := by
  obtain ⟨⟨b', x⟩, hmem, heq⟩ := List.mem_map.mp h
  exact ⟨x, (congrArg Prod.snd heq).symm⟩

/-- Claim C3 (amended): in percentage mode, every row of the
brand-by-segment summary of either variant either has all four cells
defined and summing to exactly 100 (nonzero count total), or has all four
cells NaN (zero count total, the 0/0 division) — never cells equal to 0
for a zero-total row, and never a raised error since the operation is a
total function. -/
theorem C3_pct_rows (maxDate : ℤ) (t : List Row) (b : String) (pr : PctCounts)
    (h : (b, pr) ∈ brand_segment_pct_v1 maxDate t
      ∨ (b, pr) ∈ brand_segment_pct_v2 maxDate t) :
    (∃ qa qw qc ql : ℚ, pr = ⟨some qa, some qw, some qc, some ql⟩
      ∧ qa + qw + qc + ql = 100)
    ∨ pr = ⟨none, none, none, none⟩ := by
  have hx : ∃ x : SegCounts, pr = pctRow x := by
    rcases h with h | h
    · exact mem_brand_segment_summary_pct h
    · exact mem_brand_segment_summary_pct h
  obtain ⟨x, rfl⟩ := hx
  rcases pctRow_spec x with ⟨-, q, hq⟩ | ⟨-, hz⟩
  · exact Or.inl ⟨q, hq⟩
  · exact Or.inr hz

theorem C3_pct_rows_witness :
    (∃ qa qw qc ql : ℚ, (⟨none, none, none, none⟩ : PctCounts)
        = ⟨some qa, some qw, some qc, some ql⟩ ∧ qa + qw + qc + ql = 100)
    ∨ (⟨none, none, none, none⟩ : PctCounts) = ⟨none, none, none, none⟩ :=
  C3_pct_rows 10000 [⟨"a1", "A", "u1", none, 0, 1⟩] "A" ⟨none, none, none, none⟩
    (Or.inl (by decide))

/-- Claim C3, counterexample to the claim as stated: on a canonical table
spanning more than 9999 days, brand "A"'s only customer has Recency
10000, which falls outside every bin of variant 1's pd.cut, so brand "A"
has an all-zero count row whose percentage cells are NaN (0/0) — not 0 as
the claim demands. -/
theorem C3_counterexample :
    ("A", (⟨none, none, none, none⟩ : PctCounts)) ∈
      brand_segment_pct_v1
        (max_date [⟨"a1", "A", "u1", none, 0, 1⟩, ⟨"b1", "B", "u2", none, 10000, 1⟩])
        [⟨"a1", "A", "u1", none, 0, 1⟩, ⟨"b1", "B", "u2", none, 10000, 1⟩]
    ∧ ("A", (⟨some 0, some 0, some 0, some 0⟩ : PctCounts)) ∉
      brand_segment_pct_v1
        (max_date [⟨"a1", "A", "u1", none, 0, 1⟩, ⟨"b1", "B", "u2", none, 10000, 1⟩])
        [⟨"a1", "A", "u1", none, 0, 1⟩, ⟨"b1", "B", "u2", none, 10000, 1⟩] := by
  constructor
  · decide
  · decide

/-! ### Top-k ranking per brand (C8) -/

theorem countBrand_cons_pos {κ : Type} {brandOf : κ → String} {b : String}
    {x : κ × ℤ} (l : List (κ × ℤ)) (hx : brandOf x.1 = b) :
    countBrand brandOf b (x :: l) = countBrand brandOf b l + 1 := by
  simp [countBrand, List.filter_cons, hx]

theorem countBrand_cons_neg {κ : Type} {brandOf : κ → String} {b : String}
    {x : κ × ℤ} (l : List (κ × ℤ)) (hx : ¬brandOf x.1 = b) :
    countBrand brandOf b (x :: l) = countBrand brandOf b l := by
  simp [countBrand, List.filter_cons, hx]

/-- Exact per-brand count kept by the head-per-group pass: the first
`k - seen.count b` rows of brand `b`, or all of them if fewer. -/
theorem countBrand_headPerGroup {κ : Type} (brandOf : κ → String) (k : ℕ) (b : String)
    (l : List (κ × ℤ)) (seen : List String) :
    countBrand brandOf b (headPerGroup brandOf k seen l)
      = min (k - seen.count b) (countBrand brandOf b l) := by
  induction l generalizing seen with
  | nil => simp [headPerGroup, countBrand]
  | cons x xs ih =>
    simp only [headPerGroup]
    by_cases hx : brandOf x.1 = b
    <;> by_cases h : seen.count (brandOf x.1) < k
    · rw [if_pos h, countBrand_cons_pos _ hx, ih, countBrand_cons_pos _ hx,
        hx, List.count_cons_self]
      have hcount : seen.count b < k := by rw [← hx]; exact h
      omega
    · rw [if_neg h, ih, countBrand_cons_pos _ hx]
      have hcount : ¬seen.count b < k := by rw [← hx]; exact h
      omega
    · rw [if_pos h, countBrand_cons_neg _ hx, ih, countBrand_cons_neg _ hx]
      have hcount : (brandOf x.1 :: seen).count b = seen.count b := by
        rw [List.count_cons]
        simp [hx, Ne.symm hx]
      rw [hcount]
    · rw [if_neg h, ih, countBrand_cons_neg _ hx]

theorem headPerGroup_sublist {κ : Type} (brandOf : κ → String) (k : ℕ)
    (seen : List String) (l : List (κ × ℤ)) :
    List.Sublist (headPerGroup brandOf k seen l) l := by
  induction l generalizing seen with
  | nil => exact List.Sublist.refl []
  | cons x xs ih =>
    simp only [headPerGroup]
    by_cases h : seen.count (brandOf x.1) < k
    · rw [if_pos h]
      exact List.Sublist.cons₂ x (ih _)
    · rw [if_neg h]
      exact List.Sublist.cons x (ih seen)

/-- The sort order used by the ranking stage is sorted by `mergeSort`:
brands ascending, quantity descending within a brand. -/
theorem sorted_rankLE {κ : Type} (brandOf : κ → String) (l : List (κ × ℤ)) :
    (List.mergeSort l (rankLE brandOf)).Pairwise
      (fun a b => rankLE brandOf a b = true) :=
  @List.sorted_mergeSort _ (rankLE brandOf)
    (fun a b c h1 h2 => by
      simp only [rankLE, Bool.or_eq_true, Bool.and_eq_true, decide_eq_true_eq] at *
      rcases h1 with h1 | ⟨h1e, h1q⟩ <;> rcases h2 with h2 | ⟨h2e, h2q⟩
      · exact Or.inl (lt_trans h1 h2)
      · exact Or.inl (h2e ▸ h1)
      · exact Or.inl (h1e ▸ h2)
      · exact Or.inr ⟨h1e.trans h2e, le_trans h2q h1q⟩)
    (fun a b => by
      simp only [rankLE, Bool.or_eq_true, Bool.and_eq_true, decide_eq_true_eq]
      rcases lt_trichotomy (brandOf a.1) (brandOf b.1) with h | h | h
      · exact Or.inl (Or.inl h)
      · rcases le_total a.2 b.2 with hq | hq
        · exact Or.inr (Or.inr ⟨h.symm, hq⟩)
        · exact Or.inl (Or.inr ⟨h, hq⟩)
      · exact Or.inr (Or.inl h))
    l

/-- Everything Claim C8 needs, generically in the group key. -/
theorem top_k_spec {κ : Type} [DecidableEq κ] (brandOf : κ → String) (key : Row → κ)
    (k : ℕ) (t : List Row) (b : String) :
    countBrand brandOf b (top_k brandOf key k t)
      = min k (countBrand brandOf b (group_qty_sum key t))
    ∧ (top_k brandOf key k t).Pairwise
        (fun x y => brandOf x.1 = brandOf y.1 → y.2 ≤ x.2) := by
  constructor
  · rw [top_k, countBrand_headPerGroup]
    rw [List.count_nil, Nat.sub_zero]
    congr 1
    exact ((List.mergeSort_perm (group_qty_sum key t) (rankLE brandOf)).filter _).length_eq
  · refine List.Pairwise.imp ?_
      ((sorted_rankLE brandOf (group_qty_sum key t)).sublist
        (headPerGroup_sublist brandOf k [] _))
    intro a c hle hbr
    simp only [rankLE, Bool.or_eq_true, Bool.and_eq_true, decide_eq_true_eq] at hle
    rcases hle with h | ⟨-, hq⟩
    · exact absurd (hbr ▸ h) (lt_irrefl _)
    · exact hq

/-- Claim C8: for every filtered table and every k, top-k ranking with
the brand partition key returns, per brand, exactly the smaller of k and
that brand's own number of aggregated rows (so no brand's rows are
truncated by another brand's), and within each brand the returned rows
are in descending order of aggregated quantity — in both variants. -/
theorem C8_top_k_per_brand (t : List Row) (k : ℕ) (b : String) :
    (countBrand Prod.fst b (top_customers_by_brand_v1 k t)
        = min k (countBrand Prod.fst b (group_qty_sum (fun r => (r.brand, r.userId)) t))
      ∧ (top_customers_by_brand_v1 k t).Pairwise
          (fun x y => x.1.1 = y.1.1 → y.2 ≤ x.2))
    ∧ (countBrand Prod.fst b (top_customers_by_brand_v2 k t)
        = min k (countBrand Prod.fst b
            (group_qty_sum (fun r => (r.brand, r.userId, r.email)) t))
      ∧ (top_customers_by_brand_v2 k t).Pairwise
          (fun x y => x.1.1 = y.1.1 → y.2 ≤ x.2)) :=
  ⟨top_k_spec Prod.fst (fun r => (r.brand, r.userId)) k t b,
    top_k_spec Prod.fst (fun r => (r.brand, r.userId, r.email)) k t b⟩
